import Mathlib

/-!
Verification model of `Libraries/LibWeb/Animations/Animation.h` (the Animation
timing/lifecycle controller of the web-animations subsystem).

The repository snapshot contains only the class interface `Animation.h`; the
method bodies of `Animation.cpp` are not part of the snapshot.  Declarations,
enumerations, default member initializers and the inline members
(`pending()`, `is_finished()`, `animation_class()`,
`class_specific_composite_order()`) are therefore translated directly from the
header, while every method whose body is missing is modelled from the
behavioural specification of the subsystem (its doc comment starts with
`Modelled from the spec:` and names the missing function).

Machine doubles are modelled as rationals (ℚ); the possibly-infinite
associated effect end gets its own two-constructor type `EffectEnd`.
-/

set_option linter.unusedVariables false

namespace AnimationModel

/-- Translated from `Animation.h` lines 17-22: composite-order classes, listed
in composite order. -/
inductive AnimationClass where
  | CSSAnimationWithOwningElement
  | CSSTransition
  | CSSAnimationWithoutOwningElement
  | None
deriving DecidableEq, BEq

/-- Translated from `Animation.h` lines 125-128 (`enum class TaskState`). -/
inductive TaskState where
  | None
  | Scheduled
deriving DecidableEq, BEq

/-- Translated from the `Bindings::AnimationReplaceState` values used by
`Animation.h` line 183. -/
inductive AnimationReplaceState where
  | Active
  | Removed
  | Persisted
deriving DecidableEq, BEq

/-- Translated from the `Bindings::AnimationPlayState` values returned by
`Animation::play_state()` (`Animation.h` line 51). -/
inductive AnimationPlayState where
  | Idle
  | Running
  | Paused
  | Finished
deriving DecidableEq, BEq

/-- Settlement state of one generation of the `ready` / `finished` promises
(`Animation.h` lines 187-190); the lazily-created promise is modelled as an
always-present `Pending` slot. -/
inductive PromiseState where
  | Pending
  | Resolved
  | Rejected
deriving DecidableEq, BEq

/-- Modelled from the spec: the associated effect end
`(iteration_duration × iteration_count) + delay + end_delay` of the external
`AnimationEffect` collaborator (not part of the snapshot); it is either a
finite time or infinite (unbounded iteration count). -/
inductive EffectEnd where
  | finite (t : ℚ)
  | infinite
deriving DecidableEq, BEq

/-- Modelled from the spec: the external `AnimationTimeline` collaborator (not
part of the snapshot), reduced to the one query the animation samples,
`current_time() → optional<real>`. -/
structure AnimationTimeline where
  current_time : Option ℚ
deriving DecidableEq, BEq

/-- Error kinds raised by the command surface (`WebIDL::ExceptionOr`):
`InvalidStateError` is the only synchronous command-level error. -/
inductive WebError where
  | InvalidStateError
deriving DecidableEq, BEq

/-- The member state of one `Animation` object, translated from the data
members of `Animation.h` lines 156-206 (identity-only members `m_id` and
`m_owning_element`, and the microtask id, are omitted; the effect reference is
reduced to the one quantity the timing model reads from it, its effect end). -/
structure State where
  effect : Option EffectEnd
  timeline : Option AnimationTimeline
  start_time : Option ℚ
  hold_time : Option ℚ
  previous_current_time : Option ℚ
  playback_rate : ℚ
  pending_playback_rate : Option ℚ
  replace_state : AnimationReplaceState
  ready_promise : PromiseState
  finished_promise : PromiseState
  is_finished : Bool
  pending_play_task : TaskState
  pending_pause_task : TaskState
  global_animation_list_order : Nat
  saved_cancel_time : Option ℚ
deriving DecidableEq, BEq

/-- Result of a fallible command (`WebIDL::ExceptionOr<void>` on a mutable
object): either the updated state, or an error together with the state the
object was left in when the error was raised. -/
inductive CmdResult where
  | ok (s : State)
  | err (e : WebError) (s : State)
deriving DecidableEq, BEq

/-- The state carried by a command result, whether or not it erred. -/
def stateOf : CmdResult → State
  | CmdResult.ok s => s
  | CmdResult.err _ s => s

/-- Whether a command result is a normal completion. -/
def isOk : CmdResult → Bool
  | CmdResult.ok _ => true
  | CmdResult.err _ _ => false

/-- The timeline time the animation samples: `none` when there is no timeline
or the timeline has no current time. -/
def timeline_time (s : State) : Option ℚ :=
  match s.timeline with
  | some tl => tl.current_time
  | none => none

/-- Modelled from the spec: `Animation::associated_effect_end` (declared at
`Animation.h` line 116, body missing) — delegates to the effect and returns 0
when no effect is attached. -/
def associated_effect_end (s : State) : EffectEnd :=
  (s.effect).getD (EffectEnd.finite 0)

/-- Modelled from the spec: `Animation::effective_playback_rate` (declared at
`Animation.h` line 140, body missing) — the pending playback rate if staged,
otherwise the playback rate. -/
def effective_playback_rate (s : State) : ℚ :=
  (s.pending_playback_rate).getD s.playback_rate

/-- Modelled from the spec: `Animation::current_time` (declared at
`Animation.h` line 45, body missing) — hold time if set; unresolved when the
start time is unset or the timeline has no current time; otherwise
`(timeline_current_time − start_time) × playback_rate`. -/
def current_time (s : State) : Option ℚ :=
  match s.hold_time with
  | some h => some h
  | none =>
    match s.start_time with
    | none => none
    | some st =>
      match timeline_time s with
      | none => none
      | some now => some ((now - st) * s.playback_rate)

/-- Translated from `Animation.h` line 60:
`pending()` is true when either pending task flag is `Scheduled`. -/
def pending (s : State) : Bool :=
  s.pending_play_task == TaskState.Scheduled || s.pending_pause_task == TaskState.Scheduled

/-- Current time is resolved and strictly before time 0. -/
def ct_lt_zero (s : State) : Bool :=
  match current_time s with
  | some c => decide (c < 0)
  | none => false

/-- Current time is resolved and at or before time 0. -/
def ct_le_zero (s : State) : Bool :=
  match current_time s with
  | some c => decide (c ≤ 0)
  | none => false

/-- Current time is resolved and at or beyond the (finite) effect end; a
finite time is never at or beyond an infinite effect end. -/
def ct_ge_end (s : State) : Bool :=
  match current_time s, associated_effect_end s with
  | some c, EffectEnd.finite e => decide (e ≤ c)
  | _, _ => false

/-- Current time is resolved and strictly beyond the (finite) effect end. -/
def ct_gt_end (s : State) : Bool :=
  match current_time s, associated_effect_end s with
  | some c, EffectEnd.finite e => decide (e < c)
  | _, _ => false

/-- Modelled from the spec: the finished-boundary test of the play-state
derivation — current time resolved and, accounting for the sign of the
effective playback rate, at or beyond the effect end (positive rate) or at or
before 0 (negative rate). -/
def at_end_boundary (s : State) : Bool :=
  (decide (0 < effective_playback_rate s) && ct_ge_end s)
    || (decide (effective_playback_rate s < 0) && ct_le_zero s)

/-- Modelled from the spec: `Animation::play_state` (declared at
`Animation.h` line 51, body missing) — derived, never stored: idle when there
is no timeline, or current time is unresolved with no pending tasks; finished
when at the end boundary with no pending play task; paused when the hold time
is set or a pause task is pending; running otherwise. -/
def play_state (s : State) : AnimationPlayState :=
  if s.timeline = none
      ∨ (current_time s = none ∧ s.pending_play_task = TaskState.None
          ∧ s.pending_pause_task = TaskState.None) then
    AnimationPlayState.Idle
  else if at_end_boundary s = true ∧ s.pending_play_task = TaskState.None then
    AnimationPlayState.Finished
  else if s.hold_time ≠ none ∨ s.pending_pause_task = TaskState.Scheduled then
    AnimationPlayState.Paused
  else
    AnimationPlayState.Running

/-- Modelled from the spec: `Animation::apply_any_pending_playback_rate`
(declared at `Animation.h` line 142, body missing) — commits a staged pending
playback rate and clears the staging field. -/
def apply_any_pending_playback_rate (s : State) : State :=
  match s.pending_playback_rate with
  | some r => { s with playback_rate := r, pending_playback_rate := none }
  | none => s

/-- Modelled from the spec: `Animation::silently_set_current_time` (declared
at `Animation.h` line 143, body missing) — the silent seek.  An unresolved
seek clears both hold time and start time.  A resolved seek pins the hold
time (leaving the start time unresolved) when the hold time is already set,
the start time is unset, the playback rate is 0, or no timeline time is
available to recompute a start time; otherwise it recomputes
`start_time = timeline_current_time − t / playback_rate`.  The
direction-of-travel disjunct of the specification only selects the hold-time
branch, whose observable current time coincides with the start-time branch,
and is subsumed here by the hold-time branch condition. -/
def silently_set_current_time (s : State) : Option ℚ → State
  | none => { s with hold_time := none, start_time := none }
  | some tv =>
    if s.hold_time ≠ none ∨ s.start_time = none ∨ s.playback_rate = 0
        ∨ timeline_time s = none then
      { s with hold_time := some tv, start_time := none }
    else
      { s with start_time := some ((timeline_time s).getD 0 - tv / s.playback_rate) }

/-- Modelled from the spec: `Animation::persist` (declared at `Animation.h`
line 93, body missing) — sets the replace state to `Persisted` and nothing
else. -/
def persist (s : State) : State :=
  { s with replace_state := AnimationReplaceState.Persisted }

/-- Modelled from the spec: `Animation::cancel` (declared at `Animation.h`
line 86, body missing) — unconditionally clears start time, hold time and
both pending task flags, rejects-and-replaces the ready promise (modelled as
the fresh pending generation), replaces the finished promise with a fresh
pending one when the animation was not already idle, and saves the pre-cancel
current time. -/
def cancel (s : State) : State :=
  { s with
    start_time := none
    hold_time := none
    pending_play_task := TaskState.None
    pending_pause_task := TaskState.None
    ready_promise := PromiseState.Pending
    finished_promise :=
      if play_state s = AnimationPlayState.Idle then s.finished_promise
      else PromiseState.Pending
    is_finished :=
      if play_state s = AnimationPlayState.Idle then s.is_finished else false
    saved_cancel_time := current_time s }

/-- Translated from `Animation.h` line 109: the base (non-CSS) animation
classifies as `AnimationClass::None`. -/
def animation_class (s : State) : AnimationClass :=
  AnimationClass.None

/-- Translated from `Animation.h` line 110: the base (non-CSS) animation has
no class-specific composite order. -/
def class_specific_composite_order (s other : State) : Option Int :=
  none

/-- Rank of an `AnimationClass` in composite order (the enumeration order of
`Animation.h` lines 17-22). -/
def classRank : AnimationClass → Nat
  | AnimationClass.CSSAnimationWithOwningElement => 0
  | AnimationClass.CSSTransition => 1
  | AnimationClass.CSSAnimationWithoutOwningElement => 2
  | AnimationClass.None => 3

/-- Modelled from the spec: the external composite-order comparison, which
uses `animation_class()`, `class_specific_composite_order()` and
`global_animation_list_order()` as a three-level sort key (the core only
supplies the keys). -/
def composite_order_compare (a b : State) : Ordering :=
  match compare (classRank (animation_class a)) (classRank (animation_class b)) with
  | Ordering.lt => Ordering.lt
  | Ordering.gt => Ordering.gt
  | Ordering.eq =>
    match class_specific_composite_order a b, class_specific_composite_order b a with
    | some x, some y =>
      match compare x y with
      | Ordering.eq => compare a.global_animation_list_order b.global_animation_list_order
      | o => o
    | _, _ => compare a.global_animation_list_order b.global_animation_list_order

/-- Translated from the default member initializers of `Animation.h` lines
156-206: a newly constructed `Animation`, given its effect, timeline and
global-animation-list order. -/
def initState (effect : Option EffectEnd) (timeline : Option AnimationTimeline)
    (order : Nat) : State :=
  { effect := effect
    timeline := timeline
    start_time := none
    hold_time := none
    previous_current_time := none
    playback_rate := 1
    pending_playback_rate := none
    replace_state := AnimationReplaceState.Active
    ready_promise := PromiseState.Pending
    finished_promise := PromiseState.Pending
    is_finished := false
    pending_play_task := TaskState.None
    pending_pause_task := TaskState.None
    global_animation_list_order := order
    saved_cancel_time := none }

/-- Effect end as a rational, with infinite mapped to 0 (only used on paths
where the effect end is known finite). -/
def end_or_zero (s : State) : ℚ :=
  match associated_effect_end s with
  | EffectEnd.finite e => e
  | EffectEnd.infinite => 0

/-- Modelled from the spec: the auto-rewind test for a non-negative effective
playback rate — the current time is unresolved, before 0, or at or beyond the
effect end. -/
def rewind_needed_pos (s : State) : Bool :=
  (current_time s).isNone || ct_lt_zero s || ct_ge_end s

/-- Modelled from the spec: the auto-rewind test for a negative effective
playback rate — the current time is unresolved, at or before 0, or beyond the
effect end. -/
def rewind_needed_neg (s : State) : Bool :=
  (current_time s).isNone || ct_le_zero s || ct_gt_end s

/-- Modelled from the spec: the rewind target computed by
`Animation::play_an_animation` when auto-rewind is requested — 0 for a
non-negative effective rate, the (finite) effect end for a negative one;
`none` when the animation can play from its current position. -/
def play_seek (s : State) (autoRewind : Bool) : Option ℚ :=
  if autoRewind = true ∧ 0 ≤ effective_playback_rate s ∧ rewind_needed_pos s = true then
    some 0
  else if autoRewind = true ∧ effective_playback_rate s < 0 ∧ rewind_needed_neg s = true then
    some (end_or_zero s)
  else
    none

/-- Pin the current time at a rewind target via the hold time. -/
def apply_seek (s : State) : Option ℚ → State
  | some t => { s with hold_time := some t, start_time := none }
  | none => s

/-- Modelled from the spec: the synchronous part of
`Animation::play_an_animation` after its validation — rewind the current time
when requested, clear any pending pause task (issuing a play cancels a
scheduled pause), and reset the finished promise to a fresh pending
generation when the animation was finished. -/
def play_prepare (s : State) (autoRewind : Bool) : State :=
  let s1 := apply_seek s (play_seek s autoRewind)
  let s2 := { s1 with pending_pause_task := TaskState.None }
  if s2.is_finished then
    { s2 with is_finished := false, finished_promise := PromiseState.Pending }
  else s2

/-- Modelled from the spec: the commit of a play request
(`Animation::run_pending_play_task`, declared at `Animation.h` line 147, body
missing), given the ready time `now` from the timeline — applies any pending
playback rate, resolves the start time from the hold time (keeping the hold
time pinned when the playback rate is 0), and settles the ready promise with
the animation. -/
def commit_pending_play (s : State) (now : ℚ) : State :=
  let s1 := apply_any_pending_playback_rate s
  match s1.hold_time with
  | some h =>
    if s1.playback_rate = 0 then
      { s1 with start_time := some now, ready_promise := PromiseState.Resolved }
    else
      { s1 with
        start_time := some (now - h / s1.playback_rate)
        hold_time := none
        ready_promise := PromiseState.Resolved }
  | none =>
    { s1 with
      start_time := if s1.start_time = none then some now else s1.start_time
      ready_promise := PromiseState.Resolved }

/-- Modelled from the spec: `Animation::play_an_animation` (declared at
`Animation.h` line 89, body missing).  Raises `InvalidStateError` exactly
when auto-rewind is requested, the effective playback rate is negative, the
current position requires a rewind, and the effect end is infinite (the
rewind target would be unreachable); validation precedes every mutation.
Otherwise: rewinds to the seek target, cancels any pending pause task, resets
the finished promise when leaving the finished state, then either commits the
start time synchronously (a timeline current time is available and no
playback rate is staged) or schedules the pending play task with a pending
ready promise. -/
def play_an_animation (s : State) (autoRewind : Bool) : CmdResult :=
  if autoRewind = true ∧ effective_playback_rate s < 0 ∧ rewind_needed_neg s = true
      ∧ associated_effect_end s = EffectEnd.infinite then
    CmdResult.err WebError.InvalidStateError s
  else
    match timeline_time s with
    | some now =>
      if (play_prepare s autoRewind).pending_playback_rate = none then
        CmdResult.ok
          { commit_pending_play (play_prepare s autoRewind) now with
            pending_play_task := TaskState.None }
      else
        CmdResult.ok
          { play_prepare s autoRewind with
            pending_play_task := TaskState.Scheduled
            ready_promise := PromiseState.Pending }
    | none =>
      CmdResult.ok
        { play_prepare s autoRewind with
          pending_play_task := TaskState.Scheduled
          ready_promise := PromiseState.Pending }

/-- Modelled from the spec: `Animation::pause` (declared at `Animation.h`
line 90, body missing).  Raises `InvalidStateError` when the animation is
already pausing (a pause task is scheduled or the derived play state is
paused) and no pending play task exists, with nothing to change; validation
precedes every mutation.  Otherwise clears the pending play task (issuing a
pause cancels a scheduled play), pins the hold time at 0 when the current
time is unresolved, schedules the pending pause task and leaves the ready
promise pending until the task commits. -/
def pause (s : State) : CmdResult :=
  if (s.pending_pause_task = TaskState.Scheduled ∨ play_state s = AnimationPlayState.Paused)
      ∧ s.pending_play_task = TaskState.None then
    CmdResult.err WebError.InvalidStateError s
  else
    let s1 := { s with pending_play_task := TaskState.None }
    let s2 := if current_time s = none then { s1 with hold_time := some 0 } else s1
    CmdResult.ok
      { s2 with
        pending_pause_task := TaskState.Scheduled
        ready_promise := PromiseState.Pending }

/-- Modelled from the spec: the commit of a pause request
(`Animation::run_pending_pause_task`, declared at `Animation.h` line 148,
body missing), given the ready time `now` — freezes the current time into the
hold time, applies any pending playback rate, unsets the start time and
settles the ready promise. -/
def commit_pending_pause (s : State) (now : ℚ) : State :=
  let s1 :=
    if s.start_time ≠ none ∧ s.hold_time = none then
      { s with hold_time := some ((now - (s.start_time).getD 0) * s.playback_rate) }
    else s
  let s2 := apply_any_pending_playback_rate s1
  { s2 with
    start_time := none
    pending_pause_task := TaskState.None
    ready_promise := PromiseState.Resolved }

/-- Modelled from the spec: the pending play task at a microtask checkpoint —
it re-validates that its flag is still `Scheduled` (a cleared flag makes it a
no-op that settles nothing) and commits only once a timeline current time is
available. -/
def run_pending_play_task (s : State) : State :=
  if s.pending_play_task = TaskState.Scheduled then
    match timeline_time s with
    | some now =>
      { commit_pending_play s now with pending_play_task := TaskState.None }
    | none => s
  else s

/-- Modelled from the spec: the pending pause task at a microtask checkpoint —
same flag re-validation as the play task. -/
def run_pending_pause_task (s : State) : State :=
  if s.pending_pause_task = TaskState.Scheduled then
    match timeline_time s with
    | some now => commit_pending_pause s now
    | none => s
  else s

/-- Modelled from the spec: `Animation::finish` (declared at `Animation.h`
line 87, body missing).  Raises `InvalidStateError` exactly when the
effective playback rate is 0, or is positive while the effect end is
infinite; validation precedes every mutation.  Otherwise seeks silently to
the boundary (the effect end for a positive effective rate, 0 for a negative
one), cancels both pending tasks, and resolves the finished promise
synchronously. -/
def finish (s : State) : CmdResult :=
  if effective_playback_rate s = 0
      ∨ (0 < effective_playback_rate s ∧ associated_effect_end s = EffectEnd.infinite) then
    CmdResult.err WebError.InvalidStateError s
  else
    CmdResult.ok
      { silently_set_current_time s
          (some (if 0 < effective_playback_rate s then end_or_zero s else 0)) with
        pending_play_task := TaskState.None
        pending_pause_task := TaskState.None
        finished_promise := PromiseState.Resolved
        is_finished := true }

/-- Modelled from the spec: `Animation::reverse` (declared at `Animation.h`
line 92, body missing).  Raises `InvalidStateError` when there is no timeline
or the effect end is infinite in the direction of travel after the reversal
(the current effective rate is positive with an infinite effect end);
validation precedes every mutation.  Otherwise stages the negated effective
playback rate and delegates to `play_an_animation` with auto-rewind. -/
def reverse (s : State) : CmdResult :=
  if s.timeline = none
      ∨ (0 < effective_playback_rate s ∧ associated_effect_end s = EffectEnd.infinite) then
    CmdResult.err WebError.InvalidStateError s
  else
    play_an_animation
      { s with pending_playback_rate := some (-(effective_playback_rate s)) } true

/-- Modelled from the spec: `Animation::update_playback_rate` (declared at
`Animation.h` line 91, body missing).  With no pending task and a non-idle
play state it stages the pending playback rate and enqueues the deferred
commit (the pending play task, whose commit applies the staged rate and
clears the staging field); when idle or already pending it applies the new
rate immediately without additional scheduling. -/
def update_playback_rate (s : State) (newRate : ℚ) : State :=
  if s.pending_play_task = TaskState.None ∧ s.pending_pause_task = TaskState.None
      ∧ play_state s ≠ AnimationPlayState.Idle then
    { s with
      pending_playback_rate := some newRate
      pending_play_task := TaskState.Scheduled }
  else
    { s with playback_rate := newRate, pending_playback_rate := none }

/-- Modelled from the spec: `Animation::update_finished_state` (declared at
`Animation.h` line 144, body missing), edge-triggered — entering the finished
play state resolves the finished promise once; leaving it replaces the
finished promise with a fresh pending generation. -/
def update_finished_state (s : State) : State :=
  if play_state s = AnimationPlayState.Finished then
    if s.is_finished then { s with previous_current_time := current_time s }
    else
      { s with
        is_finished := true
        finished_promise := PromiseState.Resolved
        previous_current_time := current_time s }
  else if s.is_finished then
    { s with
      is_finished := false
      finished_promise := PromiseState.Pending
      previous_current_time := current_time s }
  else { s with previous_current_time := current_time s }

/-- Modelled from the spec: `Animation::notify_timeline_time_did_change`
(declared at `Animation.h` line 99, body missing) — re-derives the finished
state after the timeline advances. -/
def notify_timeline_time_did_change (s : State) : State :=
  update_finished_state s

/-- One observable step of the animation state machine: any command of the
public surface, or one of the deferred task commits, or a timeline
notification. -/
inductive Step : State → State → Prop where
  | play_cmd (s : State) (r : Bool) : Step s (stateOf (play_an_animation s r))
  | pause_cmd (s : State) : Step s (stateOf (pause s))
  | reverse_cmd (s : State) : Step s (stateOf (reverse s))
  | finish_cmd (s : State) : Step s (stateOf (finish s))
  | cancel_cmd (s : State) : Step s (cancel s)
  | persist_cmd (s : State) : Step s (persist s)
  | update_rate_cmd (s : State) (q : ℚ) : Step s (update_playback_rate s q)
  | run_play_task (s : State) : Step s (run_pending_play_task s)
  | run_pause_task (s : State) : Step s (run_pending_pause_task s)
  | timeline_change (s : State) : Step s (notify_timeline_time_did_change s)

/-- A state is reachable when it arises from a newly constructed animation by
a sequence of steps. -/
inductive Reachable : State → Prop where
  | init (e : Option EffectEnd) (t : Option AnimationTimeline) (o : Nat) :
      Reachable (initState e t o)
  | step {s s' : State} : Reachable s → Step s s' → Reachable s'

/-- At most one of the two pending task flags is `Scheduled`. -/
def TaskMutex (s : State) : Prop :=
  ¬(s.pending_play_task = TaskState.Scheduled ∧ s.pending_pause_task = TaskState.Scheduled)

lemma apply_rate_flags (s : State) :
    (apply_any_pending_playback_rate s).pending_play_task = s.pending_play_task
      ∧ (apply_any_pending_playback_rate s).pending_pause_task = s.pending_pause_task := by
  unfold apply_any_pending_playback_rate
  rcases hp : s.pending_playback_rate with _ | r <;> simp

lemma commit_play_flags (s : State) (now : ℚ) :
    (commit_pending_play s now).pending_pause_task = s.pending_pause_task := by
  unfold commit_pending_play
  rcases hh : (apply_any_pending_playback_rate s).hold_time with _ | hv
  · simp only [hh]
    exact (apply_rate_flags s).2
  · simp only [hh]
    split <;> exact (apply_rate_flags s).2

lemma play_prepare_pause_none (s : State) (r : Bool) :
    (play_prepare s r).pending_pause_task = TaskState.None := by
  simp only [play_prepare]
  split <;> rfl

lemma play_err_eq (s : State) (r : Bool) (e : WebError) (s' : State)
    (h : play_an_animation s r = CmdResult.err e s') : s' = s := by
  unfold play_an_animation at h
  split at h
  · injection h with h1 h2
    exact h2.symm
  · split at h
    · split at h <;> simp at h
    · simp at h

lemma play_err_guard (s : State) (r : Bool) (e : WebError) (s' : State)
    (h : play_an_animation s r = CmdResult.err e s') :
    effective_playback_rate s < 0 ∧ associated_effect_end s = EffectEnd.infinite := by
  unfold play_an_animation at h
  split at h
  case isTrue hc => exact ⟨hc.2.1, hc.2.2.2⟩
  case isFalse =>
    split at h
    · split at h <;> simp at h
    · simp at h

lemma play_ok_pause_none (s : State) (r : Bool) (s' : State)
    (h : play_an_animation s r = CmdResult.ok s') :
    s'.pending_pause_task = TaskState.None := by
  unfold play_an_animation at h
  split at h
  · simp at h
  · split at h
    · split at h
      · injection h with h1
        rw [← h1]
        exact (commit_play_flags (play_prepare s r) _).trans (play_prepare_pause_none s r)
      · injection h with h1
        rw [← h1]
        exact play_prepare_pause_none s r
    · injection h with h1
      rw [← h1]
      exact play_prepare_pause_none s r

lemma pause_err_eq (s : State) (e : WebError) (s' : State)
    (h : pause s = CmdResult.err e s') : s' = s := by
  unfold pause at h
  split at h
  · injection h with h1 h2
    exact h2.symm
  · simp at h

lemma pause_ok_flags (s : State) (s' : State) (h : pause s = CmdResult.ok s') :
    s'.pending_play_task = TaskState.None ∧ s'.pending_pause_task = TaskState.Scheduled := by
  unfold pause at h
  split at h
  · simp at h
  · injection h with h1
    rw [← h1]
    constructor
    · dsimp only
      split <;> rfl
    · rfl

lemma finish_err_eq (s : State) (e : WebError) (s' : State)
    (h : finish s = CmdResult.err e s') : s' = s := by
  unfold finish at h
  split at h
  · injection h with h1 h2
    exact h2.symm
  · simp at h

lemma finish_ok_flags (s : State) (s' : State) (h : finish s = CmdResult.ok s') :
    s'.pending_play_task = TaskState.None ∧ s'.pending_pause_task = TaskState.None := by
  unfold finish at h
  split at h
  · simp at h
  · injection h with h1
    rw [← h1]
    exact ⟨rfl, rfl⟩

lemma reverse_err_eq (s : State) (e : WebError) (s' : State)
    (h : reverse s = CmdResult.err e s') : s' = s := by
  unfold reverse at h
  split at h
  · injection h with h1 h2
    exact h2.symm
  case isFalse hguard =>
    exfalso
    have hg := play_err_guard _ true e s' h
    have heff : effective_playback_rate
        { s with pending_playback_rate := some (-(effective_playback_rate s)) }
        = -(effective_playback_rate s) := rfl
    have hend : associated_effect_end
        { s with pending_playback_rate := some (-(effective_playback_rate s)) }
        = associated_effect_end s := rfl
    rw [heff, hend] at hg
    have hnotpos : ¬(0 < effective_playback_rate s ∧ associated_effect_end s = EffectEnd.infinite) :=
      fun hc => hguard (Or.inr hc)
    have : ¬(0 < effective_playback_rate s) := fun hp => hnotpos ⟨hp, hg.2⟩
    linarith [hg.1]

lemma reverse_ok_pause_none (s : State) (s' : State)
    (h : reverse s = CmdResult.ok s') : s'.pending_pause_task = TaskState.None := by
  unfold reverse at h
  split at h
  · simp at h
  · exact play_ok_pause_none _ true s' h

lemma mutex_of_pause_none {s : State} (h : s.pending_pause_task = TaskState.None) :
    TaskMutex s := by
  intro hcon
  rw [h] at hcon
  exact TaskState.noConfusion hcon.2

lemma mutex_of_play_none {s : State} (h : s.pending_play_task = TaskState.None) :
    TaskMutex s := by
  intro hcon
  rw [h] at hcon
  exact TaskState.noConfusion hcon.1

lemma step_preserves_mutex {s s' : State} (hm : TaskMutex s) (hstep : Step s s') :
    TaskMutex s' := by
  cases hstep with
  | play_cmd r =>
    cases h : play_an_animation s r with
    | ok s1 =>
      exact mutex_of_pause_none (play_ok_pause_none s r s1 h)
    | err e s1 =>
      have heq := play_err_eq s r e s1 h
      simpa [stateOf, heq] using hm
  | pause_cmd =>
    cases h : pause s with
    | ok s1 =>
      exact mutex_of_play_none (pause_ok_flags s s1 h).1
    | err e s1 =>
      have heq := pause_err_eq s e s1 h
      simpa [stateOf, heq] using hm
  | reverse_cmd =>
    cases h : reverse s with
    | ok s1 =>
      exact mutex_of_pause_none (reverse_ok_pause_none s s1 h)
    | err e s1 =>
      have heq := reverse_err_eq s e s1 h
      simpa [stateOf, heq] using hm
  | finish_cmd =>
    cases h : finish s with
    | ok s1 =>
      exact mutex_of_play_none (finish_ok_flags s s1 h).1
    | err e s1 =>
      have heq := finish_err_eq s e s1 h
      simpa [stateOf, heq] using hm
  | cancel_cmd =>
    exact mutex_of_play_none rfl
  | persist_cmd =>
    exact hm
  | update_rate_cmd q =>
    unfold update_playback_rate
    split
    case isTrue hc => exact mutex_of_pause_none hc.2.1
    case isFalse => exact hm
  | run_play_task =>
    unfold run_pending_play_task
    split
    case isTrue =>
      cases htl : timeline_time s with
      | some now => exact mutex_of_play_none rfl
      | none => exact hm
    case isFalse => exact hm
  | run_pause_task =>
    unfold run_pending_pause_task
    split
    case isTrue =>
      cases htl : timeline_time s with
      | some now => exact mutex_of_pause_none rfl
      | none => exact hm
    case isFalse => exact hm
  | timeline_change =>
    unfold notify_timeline_time_did_change update_finished_state
    split
    · split <;> exact hm
    · split <;> exact hm

lemma silently_set_preserves (s : State) (t : Option ℚ) :
    (silently_set_current_time s t).timeline = s.timeline
      ∧ (silently_set_current_time s t).effect = s.effect
      ∧ (silently_set_current_time s t).playback_rate = s.playback_rate
      ∧ (silently_set_current_time s t).pending_playback_rate = s.pending_playback_rate := by
  cases t with
  | none => exact ⟨rfl, rfl, rfl, rfl⟩
  | some tv =>
    simp only [silently_set_current_time]
    split <;> exact ⟨rfl, rfl, rfl, rfl⟩

lemma timeline_time_update (s : State) (st hd : Option ℚ) :
    timeline_time { s with start_time := st, hold_time := hd } = timeline_time s := rfl

lemma silently_set_ct (s : State) (tv : ℚ) :
    current_time (silently_set_current_time s (some tv)) = some tv := by
  simp only [silently_set_current_time]
  split
  case isTrue hc => simp [current_time]
  case isFalse hc =>
    have h1 : s.hold_time = none := by
      by_contra hne
      exact hc (Or.inl hne)
    have h3 : ¬s.playback_rate = 0 := fun h0 => hc (Or.inr (Or.inr (Or.inl h0)))
    have h4 : ¬timeline_time s = none := fun h0 => hc (Or.inr (Or.inr (Or.inr h0)))
    rcases htl : timeline_time s with _ | now
    · exact absurd htl h4
    · have hcalc : (now - (now - tv / s.playback_rate)) * s.playback_rate = tv := by
        rw [sub_sub_cancel, div_mul_cancel₀ _ h3]
      simp only [current_time, h1, timeline_time_update, htl, Option.getD_some]
      rw [hcalc]

lemma current_time_update_tasks (s : State) (a b : TaskState) (p : PromiseState) (f : Bool) :
    current_time
      { s with pending_play_task := a, pending_pause_task := b,
               finished_promise := p, is_finished := f }
      = current_time s := rfl

lemma eff_update_tasks (s : State) (a b : TaskState) (p : PromiseState) (f : Bool) :
    effective_playback_rate
      { s with pending_play_task := a, pending_pause_task := b,
               finished_promise := p, is_finished := f }
      = effective_playback_rate s := rfl

lemma end_update_tasks (s : State) (a b : TaskState) (p : PromiseState) (f : Bool) :
    associated_effect_end
      { s with pending_play_task := a, pending_pause_task := b,
               finished_promise := p, is_finished := f }
      = associated_effect_end s := rfl

lemma timeline_update_tasks (s : State) (a b : TaskState) (p : PromiseState) (f : Bool) :
    ({ s with pending_play_task := a, pending_pause_task := b,
              finished_promise := p, is_finished := f } : State).timeline
      = s.timeline := rfl

lemma eff_silently (s : State) (t : Option ℚ) :
    effective_playback_rate (silently_set_current_time s t) = effective_playback_rate s := by
  unfold effective_playback_rate
  rw [(silently_set_preserves s t).2.2.2, (silently_set_preserves s t).2.2.1]

lemma end_silently (s : State) (t : Option ℚ) :
    associated_effect_end (silently_set_current_time s t) = associated_effect_end s := by
  unfold associated_effect_end
  rw [(silently_set_preserves s t).2.1]

/-- C1: for every reachable state of an `Animation`, at most one of
`pending_play_task` and `pending_pause_task` is `Scheduled`; a successful
play command cancels a scheduled pause task, a successful pause command
cancels a scheduled play task, and every command of the surface preserves
the mutual exclusion. -/
theorem pending_task_mutual_exclusion :
    (∀ s, Reachable s → TaskMutex s)
    ∧ (∀ s r s', play_an_animation s r = CmdResult.ok s' →
        s'.pending_pause_task = TaskState.None)
    ∧ (∀ s s', pause s = CmdResult.ok s' → s'.pending_play_task = TaskState.None) := by
  refine ⟨?_, fun s r s' h => play_ok_pause_none s r s' h,
    fun s s' h => (pause_ok_flags s s' h).1⟩
  intro s hr
  induction hr with
  | init e t o =>
    intro hcon
    exact TaskState.noConfusion hcon.1
  | step hr hst ih => exact step_preserves_mutex ih hst

def w1s : State := initState (some (EffectEnd.finite 2)) (some ⟨some 0⟩) 1

/-- Witness for C1 at a concrete freshly created animation. -/
theorem pending_task_mutual_exclusion_witness :
    (¬(w1s.pending_play_task = TaskState.Scheduled
        ∧ w1s.pending_pause_task = TaskState.Scheduled))
    ∧ (stateOf (play_an_animation w1s true)).pending_pause_task = TaskState.None
    ∧ (stateOf (pause w1s)).pending_play_task = TaskState.None :=
  ⟨pending_task_mutual_exclusion.1 w1s (Reachable.init _ _ _),
   pending_task_mutual_exclusion.2.1 w1s true (stateOf (play_an_animation w1s true)) rfl,
   pending_task_mutual_exclusion.2.2 w1s (stateOf (pause w1s)) (by decide)⟩

/-- C2: `current_time()` returns the hold time when it is set; otherwise it
is unresolved when the start time is unset or the timeline has no current
time; otherwise it is `(timeline_current_time − start_time) × playback_rate`. -/
theorem current_time_characterization :
    ∀ s : State,
      (∀ t, s.hold_time = some t → current_time s = some t)
      ∧ (s.hold_time = none → s.start_time = none ∨ timeline_time s = none →
          current_time s = none)
      ∧ (∀ st now, s.hold_time = none → s.start_time = some st →
          timeline_time s = some now →
          current_time s = some ((now - st) * s.playback_rate)) := by
  intro s
  refine ⟨fun t ht => ?_, fun hh hor => ?_, fun st now hh hst htl => ?_⟩
  · simp [current_time, ht]
  · rcases hor with hco | hco
    · simp [current_time, hh, hco]
    · rcases hst : s.start_time with _ | st
      · simp [current_time, hh, hst]
      · simp [current_time, hh, hst, hco]
  · simp [current_time, hh, hst, htl]

def w2a : State :=
  { initState (some (EffectEnd.finite 2)) (some ⟨some 3⟩) 2 with hold_time := some 5 }

def w2b : State := initState none none 3

def w2c : State :=
  { initState none (some ⟨some 3⟩) 4 with start_time := some 1 }

/-- Witness for C2 at three concrete states, one per case. -/
theorem current_time_characterization_witness :
    current_time w2a = some 5 ∧ current_time w2b = none
      ∧ current_time w2c = some ((3 - 1) * w2c.playback_rate) :=
  ⟨(current_time_characterization w2a).1 5 rfl,
   (current_time_characterization w2b).2.1 rfl (Or.inl rfl),
   (current_time_characterization w2c).2.2 1 3 rfl rfl rfl⟩

def w3cex : State := initState (some (EffectEnd.finite 2)) none 8

/-- Counterexample to C3 as stated: on an animation without a timeline
`finish()` succeeds, yet the derived play state immediately afterwards is
`Idle`, not `Finished`. -/
theorem finish_no_timeline_counterexample :
    isOk (finish w3cex) = true
      ∧ play_state (stateOf (finish w3cex)) = AnimationPlayState.Idle
      ∧ AnimationPlayState.Idle ≠ AnimationPlayState.Finished :=
  ⟨rfl, rfl, by decide⟩

/-- C3 (amended): for every animation that has an associated timeline, a
successful `finish()` commits synchronously — immediately after it returns,
with no intervening microtask, the play state is `Finished`, `is_finished`
is true, and the finished promise is resolved. -/
theorem finish_synchronous_with_timeline :
    ∀ s s' : State, s.timeline ≠ none → finish s = CmdResult.ok s' →
      play_state s' = AnimationPlayState.Finished
        ∧ s'.is_finished = true
        ∧ s'.finished_promise = PromiseState.Resolved := by
  intro s s' htl h
  unfold finish at h
  split at h
  case isTrue => exact absurd h (by simp)
  case isFalse hguard =>
    injection h with h1
    subst h1
    refine ⟨?_, rfl, rfl⟩
    have hne0 : effective_playback_rate s ≠ 0 := fun hc => hguard (Or.inl hc)
    have hnoInf : ¬(0 < effective_playback_rate s
        ∧ associated_effect_end s = EffectEnd.infinite) :=
      fun hc => hguard (Or.inr hc)
    have hctR : current_time
        { silently_set_current_time s
            (some (if 0 < effective_playback_rate s then end_or_zero s else 0)) with
          pending_play_task := TaskState.None
          pending_pause_task := TaskState.None
          finished_promise := PromiseState.Resolved
          is_finished := true }
        = some (if 0 < effective_playback_rate s then end_or_zero s else 0) :=
      (current_time_update_tasks _ _ _ _ _).trans (silently_set_ct s _)
    have heffR : effective_playback_rate
        { silently_set_current_time s
            (some (if 0 < effective_playback_rate s then end_or_zero s else 0)) with
          pending_play_task := TaskState.None
          pending_pause_task := TaskState.None
          finished_promise := PromiseState.Resolved
          is_finished := true }
        = effective_playback_rate s :=
      (eff_update_tasks _ _ _ _ _).trans (eff_silently s _)
    have hendR : associated_effect_end
        { silently_set_current_time s
            (some (if 0 < effective_playback_rate s then end_or_zero s else 0)) with
          pending_play_task := TaskState.None
          pending_pause_task := TaskState.None
          finished_promise := PromiseState.Resolved
          is_finished := true }
        = associated_effect_end s :=
      (end_update_tasks _ _ _ _ _).trans (end_silently s _)
    have htlR : ({ silently_set_current_time s
            (some (if 0 < effective_playback_rate s then end_or_zero s else 0)) with
          pending_play_task := TaskState.None
          pending_pause_task := TaskState.None
          finished_promise := PromiseState.Resolved
          is_finished := true } : State).timeline = s.timeline :=
      (timeline_update_tasks _ _ _ _ _).trans (silently_set_preserves s _).1
    have hbd : at_end_boundary
        { silently_set_current_time s
            (some (if 0 < effective_playback_rate s then end_or_zero s else 0)) with
          pending_play_task := TaskState.None
          pending_pause_task := TaskState.None
          finished_promise := PromiseState.Resolved
          is_finished := true } = true := by
      unfold at_end_boundary ct_ge_end ct_le_zero
      rw [hctR, heffR, hendR]
      rcases lt_or_gt_of_ne hne0 with hneg | hpos
      · simp only [if_neg (lt_asymm hneg)]
        rcases hce : associated_effect_end s with e | _ <;>
          simp [hce, hneg, lt_asymm hneg]
      · have hfin : associated_effect_end s ≠ EffectEnd.infinite :=
          fun hc => hnoInf ⟨hpos, hc⟩
        rcases hce : associated_effect_end s with e | _
        · have hL : end_or_zero s = e := by simp [end_or_zero, hce]
          simp [if_pos hpos, hce, hL, hpos]
        · exact absurd hce hfin
    unfold play_state
    rw [if_neg ?_, if_pos ⟨hbd, rfl⟩]
    rintro (hco | ⟨hco, -, -⟩)
    · exact htl (htlR.symm.trans hco)
    · rw [hctR] at hco
      exact Option.noConfusion hco

def w3s : State := initState (some (EffectEnd.finite 2)) (some ⟨some 0⟩) 9

/-- Witness for C3 (amended) at a concrete animation with an active
timeline. -/
theorem finish_synchronous_with_timeline_witness :
    play_state (stateOf (finish w3s)) = AnimationPlayState.Finished
      ∧ (stateOf (finish w3s)).is_finished = true
      ∧ (stateOf (finish w3s)).finished_promise = PromiseState.Resolved :=
  finish_synchronous_with_timeline w3s (stateOf (finish w3s)) (by decide) rfl

/-- C4: `finish()` raises `InvalidStateError` exactly when the effective
playback rate is 0, or is positive while the associated effect end is
infinite; in all other states it succeeds. -/
theorem finish_error_condition :
    ∀ s : State,
      (∃ e s', finish s = CmdResult.err e s')
        ↔ (effective_playback_rate s = 0
            ∨ (0 < effective_playback_rate s
                ∧ associated_effect_end s = EffectEnd.infinite)) := by
  intro s
  unfold finish
  split
  case isTrue hc =>
    exact ⟨fun _ => hc, fun _ => ⟨WebError.InvalidStateError, s, rfl⟩⟩
  case isFalse hc =>
    refine ⟨?_, fun hg => absurd hg hc⟩
    rintro ⟨e, s', hco⟩
    exact CmdResult.noConfusion hco

def w4s : State :=
  { initState (some (EffectEnd.finite 2)) (some ⟨some 0⟩) 5 with playback_rate := 0 }

/-- Witness for C4 at a concrete zero-rate animation. -/
theorem finish_error_condition_witness :
    ∃ e s', finish w4s = CmdResult.err e s' :=
  (finish_error_condition w4s).mpr (Or.inl rfl)

/-- C5: after `cancel()` both start time and hold time are cleared, both
pending task flags are `None`, and an immediately following `current_time()`
is unresolved. -/
theorem cancel_clears_state :
    ∀ s : State,
      (cancel s).start_time = none ∧ (cancel s).hold_time = none
        ∧ (cancel s).pending_play_task = TaskState.None
        ∧ (cancel s).pending_pause_task = TaskState.None
        ∧ current_time (cancel s) = none :=
  fun s => ⟨rfl, rfl, rfl, rfl, rfl⟩

/-- C7: whenever `play_an_animation`, `pause`, `reverse` or `finish` raises
`InvalidStateError` the state is unchanged (validation precedes mutation);
in particular `reverse()` on an animation with an infinite effect end and
effective playback rate 1 fails with `InvalidStateError` and leaves the
state unchanged.  `update_playback_rate` never raises in this model. -/
theorem command_error_atomicity :
    (∀ s r e s', play_an_animation s r = CmdResult.err e s' → s' = s)
    ∧ (∀ s e s', pause s = CmdResult.err e s' → s' = s)
    ∧ (∀ s e s', reverse s = CmdResult.err e s' → s' = s)
    ∧ (∀ s e s', finish s = CmdResult.err e s' → s' = s)
    ∧ (∀ s : State, effective_playback_rate s = 1 →
        associated_effect_end s = EffectEnd.infinite →
        reverse s = CmdResult.err WebError.InvalidStateError s) := by
  refine ⟨play_err_eq, pause_err_eq, reverse_err_eq, finish_err_eq, ?_⟩
  intro s h1 h2
  unfold reverse
  rw [if_pos (Or.inr ⟨by rw [h1]; norm_num, h2⟩)]

def w7s : State := initState (some EffectEnd.infinite) (some ⟨some 0⟩) 7

def w7b : State :=
  { initState (some EffectEnd.infinite) (some ⟨some 0⟩) 17 with playback_rate := -1 }

def w7c : State :=
  { initState (some (EffectEnd.finite 2)) (some ⟨some 1⟩) 27 with hold_time := some 1 }

def w7e : State :=
  { initState (some (EffectEnd.finite 2)) (some ⟨some 0⟩) 37 with playback_rate := 0 }

/-- Witness for C7: each erring command applied at a concrete erring input. -/
theorem command_error_atomicity_witness :
    w7b = w7b ∧ w7c = w7c ∧ w7s = w7s ∧ w7e = w7e
      ∧ reverse w7s = CmdResult.err WebError.InvalidStateError w7s :=
  ⟨command_error_atomicity.1 w7b true WebError.InvalidStateError w7b (by decide),
   command_error_atomicity.2.1 w7c WebError.InvalidStateError w7c (by decide),
   command_error_atomicity.2.2.1 w7s WebError.InvalidStateError w7s (by decide),
   command_error_atomicity.2.2.2.1 w7e WebError.InvalidStateError w7e (by decide),
   command_error_atomicity.2.2.2.2 w7s rfl rfl⟩

/-- C8: `persist()` is idempotent, leaves the replace state `Persisted`, and
has no effect on any timing attribute. -/
theorem persist_idempotent :
    ∀ s : State,
      persist (persist s) = persist s
        ∧ (persist s).replace_state = AnimationReplaceState.Persisted
        ∧ (persist s).start_time = s.start_time
        ∧ (persist s).hold_time = s.hold_time
        ∧ (persist s).playback_rate = s.playback_rate
        ∧ (persist s).pending_playback_rate = s.pending_playback_rate
        ∧ current_time (persist s) = current_time s := by
  intro s
  cases s
  exact ⟨rfl, rfl, rfl, rfl, rfl, rfl, rfl⟩

/-- C9: a base (non-CSS) animation classifies as `AnimationClass::None` with
no class-specific composite order, so the composite-order comparison falls
through to the global animation list order. -/
theorem base_animation_composite_order :
    ∀ a b : State,
      animation_class a = AnimationClass.None
        ∧ class_specific_composite_order a b = none
        ∧ composite_order_compare a b
            = compare a.global_animation_list_order b.global_animation_list_order :=
  fun a b => ⟨rfl, rfl, rfl⟩

/-- C10: a newly constructed animation has unresolved start and hold times,
playback rate 1, no pending playback rate, replace state `Active`, both
pending task flags `None` (hence `pending()` false), and `is_finished`
false. -/
theorem initial_state_fields :
    ∀ (e : Option EffectEnd) (t : Option AnimationTimeline) (o : Nat),
      (initState e t o).start_time = none
        ∧ (initState e t o).hold_time = none
        ∧ (initState e t o).playback_rate = 1
        ∧ (initState e t o).pending_playback_rate = none
        ∧ (initState e t o).replace_state = AnimationReplaceState.Active
        ∧ (initState e t o).pending_play_task = TaskState.None
        ∧ (initState e t o).pending_pause_task = TaskState.None
        ∧ pending (initState e t o) = false
        ∧ (initState e t o).is_finished = false :=
  fun e t o => ⟨rfl, rfl, rfl, rfl, rfl, rfl, rfl, rfl, rfl⟩

end AnimationModel
